import Mathlib

/-!
Verification development for the dscKeybusInterface example sketches
(`examples/esp32/OpenHAB-MQTT/OpenHAB-MQTT.ino` and
`examples/esp8266/Twilio/Twilio.ino`).

The sketches bridge a DSC security-panel state model (partition flags and
bit-packed zone state, maintained by the `dscKeybusInterface` library) to
MQTT publishes respectively Twilio HTTP push notifications.  The embedding
below renders the sketches' run-loop passes as pure state transformers that
return the new panel state together with the list of outbound messages, the
HTTP status classification of `sendPush` as a function of the (abstract)
connection outcome and response bytes, and the byte accounting of the
stack buffers used when assembling topic strings.
-/

namespace DscKeybus

/-! ## Configuration constants (OpenHAB-MQTT.ino, lines 117-121) -/

def mqttPartitionTopic : String := "dsc/Get/Partition"

def mqttZoneTopic : String := "dsc/Get/Zone"

def mqttFireTopic : String := "dsc/Get/Fire"

def mqttSubscribeTopic : String := "dsc/Set"

/-- `dscPartitions` from the library headers: the sketches iterate
partitions `0 ..< dscPartitions` with 8 partitions configured. -/
def dscPartitions : Nat := 8

/-! ## Data model

Per-partition state of the `dsc` interface object: the value arrays
(`armed[]`, `armedAway[]`, `armedStay[]`, `exitDelay[]`, `alarm[]`,
`fire[]`, `disabled[]`) and their paired one-shot changed flags
(`armedChanged[]`, `exitDelayChanged[]`, `alarmChanged[]`, `fireChanged[]`),
gathered into one record per partition index. -/

structure PartitionStatus where
  armed : Bool
  armedAway : Bool
  armedStay : Bool
  armedChanged : Bool
  exitDelay : Bool
  exitDelayChanged : Bool
  alarm : Bool
  alarmChanged : Bool
  fire : Bool
  fireChanged : Bool
  disabled : Bool
deriving DecidableEq

/-- An MQTT publish as performed by `mqtt.publish(topic, payload, retain)`. -/
structure Publish where
  topic : String
  payload : String
  retained : Bool
deriving DecidableEq

/-- Zone bitfields: `openZones[]`/`openZonesChanged[]` are arrays of 8 bytes,
one bit per zone (`bitRead`/`bitWrite` access).  We model a byte array as a
function from group index and bit index to the bit value. -/
abbrev ZoneBits := Fin 8 → Fin 8 → Bool

/-- The `dsc` interface state read and cleared by the OpenHAB sketch's loop. -/
structure DscState where
  statusChanged : Bool
  bufferOverflow : Bool
  accessCodePrompt : Bool
  partitions : List PartitionStatus
  openZones : ZoneBits
  openZonesChanged : ZoneBits
  openZonesStatusChanged : Bool

/-! ## MessageEncoder: `publishState` (OpenHAB-MQTT.ino, lines 345-361)

Appends the 1-based partition number (`itoa(partition + 1, ..., 10)`) to the
source topic and prepends it to the payload suffix. -/

def publishState (sourceTopic : String) (partition : Nat) (sourceSuffix : String) : Publish :=
  { topic := sourceTopic ++ Nat.repr (partition + 1)
  , payload := Nat.repr (partition + 1) ++ sourceSuffix
  , retained := true }

/-! ## ChangeTracker: per-partition processing (OpenHAB-MQTT.ino, lines 180-238)

Each step consumes one changed flag and yields the publishes the
corresponding `if` block performs.  The state component carries the flag
clearing (`dsc.xChanged[partition] = false`). -/

/-- Lines 183-202: armed/disarmed status. -/
def processArmed (ps : PartitionStatus) (i : Nat) : PartitionStatus × List Publish :=
  if ps.armedChanged = true then
    ({ ps with armedChanged := false }
    , if ps.armed = true then
        if ps.armedAway = true then [publishState mqttPartitionTopic i "A"]
        else if ps.armedStay = true then [publishState mqttPartitionTopic i "S"]
        else []
      else [publishState mqttPartitionTopic i "D"])
  else (ps, [])

/-- Lines 204-217: exit delay status. -/
def processExitDelay (ps : PartitionStatus) (i : Nat) : PartitionStatus × List Publish :=
  if ps.exitDelayChanged = true then
    ({ ps with exitDelayChanged := false }
    , if ps.exitDelay = true then [publishState mqttPartitionTopic i "P"]
      else if ps.armed = false then [publishState mqttPartitionTopic i "D"]
      else [])
  else (ps, [])

/-- Lines 219-225: alarm triggered status. -/
def processAlarm (ps : PartitionStatus) (i : Nat) : PartitionStatus × List Publish :=
  if ps.alarmChanged = true then
    ({ ps with alarmChanged := false }
    , if ps.alarm = true then [publishState mqttPartitionTopic i "T"] else [])
  else (ps, [])

/-- Lines 227-237: fire alarm status. -/
def processFire (ps : PartitionStatus) (i : Nat) : PartitionStatus × List Publish :=
  if ps.fireChanged = true then
    ({ ps with fireChanged := false }
    , if ps.fire = true then [publishState mqttFireTopic i "1"]
      else [publishState mqttFireTopic i "0"])
  else (ps, [])

/-- One iteration of the per-partition loop body (lines 181-238): the four
blocks run in source order against the evolving state. -/
def processPartition (ps : PartitionStatus) (i : Nat) : PartitionStatus × List Publish :=
  let a := processArmed ps i
  let e := processExitDelay a.1 i
  let al := processAlarm e.1 i
  let f := processFire al.1 i
  (f.1, a.2 ++ e.2 ++ al.2 ++ f.2)

/-- The `for (byte partition = 0; partition < dscPartitions; partition++)`
loop, threading the partition index. -/
def partitionsPassAux : Nat → List PartitionStatus → List PartitionStatus × List Publish
  | _, [] => ([], [])
  | i, ps :: rest =>
    let s := processPartition ps i
    let r := partitionsPassAux (i + 1) rest
    (s.1 :: r.1, s.2 ++ r.2)

def partitionsPass (l : List PartitionStatus) : List PartitionStatus × List Publish :=
  partitionsPassAux 0 l

/-! ## ChangeTracker: zone scan (OpenHAB-MQTT.ino, lines 246-267)

The nested `for (zoneGroup) { for (zoneBit) ... }` loops scan
`openZonesChanged[]`; each set bit is cleared with `bitWrite(..., 0)` and one
publish is made to `mqttZoneTopic` appended with
`itoa(zoneBit + 1 + (zoneGroup * 8))`, payload `"1"`/`"0"` from
`bitRead(openZones[zoneGroup], zoneBit)`. -/

/-- The (group, bit) pairs visited by the two nested loops, in order. -/
def zoneIdx : List (Fin 8 × Fin 8) :=
  (List.finRange 8).flatMap fun g => (List.finRange 8).map fun b => (g, b)

/-- The zone number computed at line 257: `zoneBit + 1 + (zoneGroup * 8)`. -/
def zoneNumber (g b : Fin 8) : Nat := b.val + 1 + g.val * 8

/-- The publish for one zone (lines 253-263). -/
def zonePublish (oz : ZoneBits) (g b : Fin 8) : Publish :=
  { topic := mqttZoneTopic ++ Nat.repr (zoneNumber g b)
  , payload := if oz g b = true then "1" else "0"
  , retained := true }

/-- `bitWrite(openZonesChanged[zoneGroup], zoneBit, 0)` (line 251). -/
def clearZoneBit (ch : ZoneBits) (g b : Fin 8) : ZoneBits :=
  Function.update ch g (Function.update (ch g) b false)

/-- The body of the nested loops, iterated over a list of (group, bit)
indices while the changed bitfield evolves. -/
def scanZones (oz : ZoneBits) : List (Fin 8 × Fin 8) → ZoneBits → ZoneBits × List Publish
  | [], ch => (ch, [])
  | gb :: rest, ch =>
    if ch gb.1 gb.2 = true then
      let r := scanZones oz rest (clearZoneBit ch gb.1 gb.2)
      (r.1, zonePublish oz gb.1 gb.2 :: r.2)
    else scanZones oz rest ch

/-- The full zone scan (lines 248-266). -/
def zoneScan (oz ch : ZoneBits) : ZoneBits × List Publish :=
  scanZones oz zoneIdx ch

/-! ## The status-change pass of `loop()` (OpenHAB-MQTT.ino, lines 164-270)

Gated on `dsc.statusChanged`; clears the advisory flags, runs the partition
loop, then the zone scan if `openZonesStatusChanged` is set.  Serial logging,
the `accessCodePrompt` keypad write and the trailing `mqtt.subscribe` are
side effects outside the published-message model. -/

def loopPass (s : DscState) : DscState × List Publish :=
  if s.statusChanged = true then
    let pp := partitionsPass s.partitions
    let zp :=
      if s.openZonesStatusChanged = true then
        let r := zoneScan s.openZones s.openZonesChanged
        (false, r.1, r.2)
      else (s.openZonesStatusChanged, s.openZonesChanged, ([] : List Publish))
    ({ s with statusChanged := false
            , bufferOverflow := false
            , accessCodePrompt := false
            , partitions := pp.1
            , openZonesStatusChanged := zp.1
            , openZonesChanged := zp.2.1 }
    , pp.2 ++ zp.2.2)
  else (s, [])

/-! ## ConnectionSupervisor (OpenHAB-MQTT.ino, lines 314-341) -/

/-- Modelled from the spec: `dsc.resetStatus()` is `dscKeybusInterface`
library code that is not under `src/` (the sketch only calls it, line 334).
Per the spec, on a successful (re)connection the supervisor forces a full
resync: "every tracked fact's changed-flag is set true so the next
ChangeTracker pass republishes complete current state".  We model it as
setting every partition changed flag, every zone changed bit, and the
status-summary flags, leaving all underlying values untouched. -/
def resetStatus (s : DscState) : DscState :=
  { s with statusChanged := true
         , openZonesStatusChanged := true
         , openZonesChanged := fun _ _ => true
         , partitions := s.partitions.map fun ps =>
             { ps with armedChanged := true
                     , exitDelayChanged := true
                     , alarmChanged := true
                     , fireChanged := true } }

/-- `mqttConnect` (lines 330-341): on a successful `mqtt.connect` the state
of all status components is reset as changed; on failure the state is left
alone.  The boolean argument abstracts the broker connection outcome. -/
def mqttConnect (success : Bool) (s : DscState) : DscState :=
  if success = true then resetStatus s else s

/-! ## Twilio SMS sketch (Twilio.ino, second sketch)

State and passes of the esp8266 Twilio SMS example: the WiFi supervisor at
the top of `loop()` and the per-partition processing with its
`disabled[partition]` skip. -/

/-- The `dsc` interface state read by the Twilio SMS sketch's supervisor. -/
structure TwilioState where
  wifiConnected : Bool
  pauseStatus : Bool
  statusChanged : Bool
  partitions : List PartitionStatus
deriving DecidableEq

/-- Lines 614-624: the WiFi reconnect check at the top of `loop()`.  The
boolean argument is `WiFi.status() == WL_CONNECTED`. -/
def wifiCheck (wl : Bool) (t : TwilioState) : TwilioState :=
  if t.wifiConnected = false ∧ wl = true then
    { t with wifiConnected := true, pauseStatus := false, statusChanged := true }
  else if wl = false ∧ t.wifiConnected = true then
    { t with wifiConnected := false, pauseStatus := true }
  else t

/-- The prefix string `PushMessagePrefix` (line 460). -/
def pushMessagePfx : String := "Security system "

/-- One outbound `sendPush(prefix, message)` call from the Twilio loop.
`uninitArmed` records the call at lines 661-669 made while
`armed[partition]` is set but neither `armedAway` nor `armedStay` is: there
the sketch sends a `char pushMessage[24]` that was never `strcpy`-ed, so the
transmitted text is indeterminate and only the appended partition number is
known. -/
inductive PushOut where
  | send (pfx msg : String)
  | uninitArmed (partitionNumber : Nat)
deriving DecidableEq

/-- Lines 651-699: one iteration of the Twilio per-partition loop, including
the `if (dsc.disabled[partition]) continue;` skip (line 654). -/
def twilioPartitionStep (ps : PartitionStatus) (i : Nat) : PartitionStatus × List PushOut :=
  if ps.disabled = true then (ps, [])
  else
    let a :=
      if ps.armedChanged = true then
        ({ ps with armedChanged := false }
        , if ps.armed = true then
            if ps.armedAway = true then
              [PushOut.send pushMessagePfx ("armed away: partition " ++ Nat.repr (i + 1))]
            else if ps.armedStay = true then
              [PushOut.send pushMessagePfx ("armed stay: partition " ++ Nat.repr (i + 1))]
            else [PushOut.uninitArmed (i + 1)]
          else [PushOut.send pushMessagePfx ("disarmed: partition " ++ Nat.repr (i + 1))])
      else (ps, [])
    let al :=
      if a.1.alarmChanged = true then
        ({ a.1 with alarmChanged := false }
        , if a.1.alarm = true then
            [PushOut.send pushMessagePfx ("in alarm: Partition " ++ Nat.repr (i + 1))]
          else [PushOut.send pushMessagePfx "disarmed after alarm"])
      else (a.1, [])
    let f :=
      if al.1.fireChanged = true then
        ({ al.1 with fireChanged := false }
        , if al.1.fire = true then
            [PushOut.send pushMessagePfx ("fire alarm: Partition " ++ Nat.repr (i + 1))]
          else [PushOut.send pushMessagePfx "fire alarm restored"])
      else (al.1, [])
    (f.1, a.2 ++ al.2 ++ f.2)

/-- The `for (byte partition = 0; ...)` loop of the Twilio sketch. -/
def twilioPassAux : Nat → List PartitionStatus → List PartitionStatus × List PushOut
  | _, [] => ([], [])
  | i, ps :: rest =>
    let s := twilioPartitionStep ps i
    let r := twilioPassAux (i + 1) rest
    (s.1 :: r.1, s.2 ++ r.2)

def twilioPartitionsPass (l : List PartitionStatus) : List PartitionStatus × List PushOut :=
  twilioPassAux 0 l

/-! ## NotifyClient: `sendPush` (Twilio.ino, lines 272-337 and 463-528)

Both sketches contain the same routine.  The TLS connection outcome and the
response are abstracted: `none` stands for "no byte became available within
the 3000 ms wait", `some cs` for a response whose bytes are `cs`.  The
routine scans the status line up to the first space (`read() == ' '`), then
reads one more character; reading past the end of the response yields `-1`,
which is not `'2'`. -/

/-- The `while (pushClient.available()) { if (pushClient.read() == ' ') break; }`
loop: everything up to and including the first space is consumed. -/
def dropThroughSpace : List Char → List Char
  | [] => []
  | c :: rest => if c = ' ' then rest else dropThroughSpace rest

/-- `char statusCode = pushClient.read(); ... if (statusCode == '2')`:
the byte after the first space, compared against `'2'`; an exhausted
response reads `-1` and fails the comparison. -/
def statusCheck (cs : List Char) : Bool :=
  match dropThroughSpace cs with
  | [] => false
  | c :: _ => c == '2'

/-- The result of one `sendPush` call as a function of the connection
outcome and the response bytes. -/
def sendPushResult (connected : Bool) (response : Option (List Char)) : Bool :=
  if connected = false then false
  else
    match response with
    | none => false
    | some cs => statusCheck cs

/-! ## HTTP request framing (Twilio.ino, lines 479-489)

The body bytes transmitted after the blank line: `print("To=+"); print(To);
print("&From=+"); print(From); print("&Body="); print(prefix);
println(pushMessage)` — `println` appends CR LF.  The header value written
at line 480 is `strlen(To) + strlen(From) + strlen(prefix) +
strlen(pushMessage) + 18`. -/

def pushRequestBody (toNum fromNum pfx msg : String) : String :=
  "To=+" ++ toNum ++ "&From=+" ++ fromNum ++ "&Body=" ++ pfx ++ msg ++ "\r\n"

def contentLengthHeader (toNum fromNum pfx msg : String) : Nat :=
  toNum.length + fromNum.length + pfx.length + msg.length + 18

/-! ## Inbound commands: `mqttCallback` (OpenHAB-MQTT.ino, lines 275-311)

The payload is a raw byte buffer.  A first byte in `0x31 .. 0x38` selects a
partition (`payload[0] - 49`) and shifts the command index to 1.  Writes to
the panel set `dsc.writePartition = partition + 1` and call `dsc.write`. -/

/-- A `dsc.write` performed by the callback: the target partition
(`dsc.writePartition`) and the keys written. -/
structure PanelWrite where
  writePartition : Nat
  keys : String
deriving DecidableEq

/-- The callback body.  `armed` and `exitDelay` model the `dsc.armed[]` and
`dsc.exitDelay[]` arrays; reads past the supplied payload are modelled as
the byte 0, which matches no command. -/
def mqttCallback (accessCode : String) (armed exitDelay : Nat → Bool)
    (payload : List Nat) : List PanelWrite :=
  let first := payload.getD 0 0
  let partition := if 0x31 ≤ first ∧ first ≤ 0x38 then first - 49 else 0
  let payloadIndex := if 0x31 ≤ first ∧ first ≤ 0x38 then 1 else 0
  let cmd := payload.getD payloadIndex 0
  if cmd = 0x53 ∧ armed partition = false ∧ exitDelay partition = false then
    [{ writePartition := partition + 1, keys := "s" }]
  else if cmd = 0x41 ∧ armed partition = false ∧ exitDelay partition = false then
    [{ writePartition := partition + 1, keys := "w" }]
  else if cmd = 0x44 ∧ (armed partition = true ∨ exitDelay partition = true) then
    [{ writePartition := partition + 1, keys := accessCode }]
  else []

/-! ## Stack-buffer byte accounting (OpenHAB-MQTT.ino, lines 253-258 and 345-357)

For each destination buffer, its declared size in bytes and the number of
bytes the `strcpy`/`strcat` sequence stores into it (string bytes plus the
final NUL terminator). -/

/-- `char publishTopic[strlen(sourceTopic) + 1]` (line 346). -/
def publishTopicBufSize (sourceTopic : String) : Nat := sourceTopic.length + 1

/-- Bytes stored by `strcpy(publishTopic, sourceTopic);
strcat(publishTopic, partitionNumber)` (lines 351-352). -/
def publishTopicBytes (sourceTopic : String) (partition : Nat) : Nat :=
  sourceTopic.length + (Nat.repr (partition + 1)).length + 1

/-- `char currentState[strlen(sourceSuffix) + 1]` (line 355). -/
def currentStateBufSize (sourceSuffix : String) : Nat := sourceSuffix.length + 1

/-- Bytes stored by `strcpy(currentState, partitionNumber);
strcat(currentState, sourceSuffix)` (lines 356-357). -/
def currentStateBytes (sourceSuffix : String) (partition : Nat) : Nat :=
  (Nat.repr (partition + 1)).length + sourceSuffix.length + 1

/-- `char zonePublishTopic[strlen(mqttZoneTopic) + 2]` (line 254). -/
def zoneTopicBufSize : Nat := mqttZoneTopic.length + 2

/-- Bytes stored by `strcpy(zonePublishTopic, mqttZoneTopic);
strcat(zonePublishTopic, zone)` (lines 256-258), where `zone` is the
decimal digits of the zone number. -/
def zoneTopicBytes (zone : Nat) : Nat :=
  mqttZoneTopic.length + (Nat.repr zone).length + 1

/-! ## Concrete states used in witnesses and counterexamples -/

/-- A partition with no activity: everything false. -/
def blankPartition : PartitionStatus :=
  { armed := false, armedAway := false, armedStay := false, armedChanged := false
  , exitDelay := false, exitDelayChanged := false, alarm := false, alarmChanged := false
  , fire := false, fireChanged := false, disabled := false }

/-- A state whose only pending change is an alarm restore on partition 1
(`alarmChanged` set, `alarm` clear). -/
def alarmRestoredState : DscState :=
  { statusChanged := true, bufferOverflow := false, accessCodePrompt := false
  , partitions := [{ blankPartition with alarmChanged := true }]
  , openZones := fun _ _ => false
  , openZonesChanged := fun _ _ => false
  , openZonesStatusChanged := false }

/-- A state with one pending armed-away transition on partition 1 and one
pending zone-9 change. -/
def busyState : DscState :=
  { statusChanged := true, bufferOverflow := true, accessCodePrompt := false
  , partitions :=
      [{ blankPartition with armedChanged := true, armed := true, armedAway := true }
      , blankPartition]
  , openZones := fun g b => g = 1 ∧ b = 0
  , openZonesChanged := fun g b => g = 1 ∧ b = 0
  , openZonesStatusChanged := true }

/-- Eight partitions, the first with a pending disarmed-to-armed-away
transition (`armedChanged` with `armed` and `armedAway` set). -/
def armedAwayDemo : List PartitionStatus :=
  { blankPartition with armedChanged := true, armed := true, armedAway := true }
    :: List.replicate 7 blankPartition

/-- A disabled partition with a pending disarm transition. -/
def disabledPending : PartitionStatus :=
  { blankPartition with disabled := true, armedChanged := true }

/-- A Twilio-sketch state observed while WiFi is down: partition 1 is
armed away with no pending changed flag. -/
def outageState : TwilioState :=
  { wifiConnected := false, pauseStatus := true, statusChanged := false
  , partitions := [{ blankPartition with armed := true, armedAway := true }] }

/-- An exit-delay-ended-without-arming partition: `exitDelayChanged` set,
`exitDelay` and `armed` clear. -/
def exitEndedPartition : PartitionStatus :=
  { blankPartition with exitDelayChanged := true }

/-! ## List helpers -/

theorem filter_filter_eq {α : Type} (p q : α → Bool) (l : List α) :
    (l.filter p).filter q = l.filter fun a => p a && q a := by
  induction l with
  | nil => rfl
  | cons h t ih => by_cases hp : p h <;> by_cases hq : q h <;> simp [hp, hq, ih]

theorem filter_nil_of_false {α : Type} (p : α → Bool) (l : List α)
    (h : ∀ a ∈ l, p a = false) : l.filter p = [] := by
  induction l with
  | nil => rfl
  | cons hd t ih =>
    have h1 : p hd = false := h hd (List.mem_cons_self hd t)
    simp [h1, ih fun a ha => h a (List.mem_cons_of_mem hd ha)]

theorem filter_singleton_of_nodup {α : Type} [DecidableEq α] (l : List α) (a : α)
    (hn : l.Nodup) (ha : a ∈ l) : (l.filter fun x => decide (x = a)) = [a] := by
  induction l with
  | nil => cases ha
  | cons hd t ih =>
    rcases List.nodup_cons.mp hn with ⟨hmem, hnd⟩
    by_cases he : hd = a
    · subst he
      have : (t.filter fun x => decide (x = hd)) = [] :=
        filter_nil_of_false _ t fun x hx => by
          by_contra hcon
          simp at hcon
          exact hmem (hcon ▸ hx)
      simp [this]
    · rcases List.mem_cons.mp ha with h1 | h1
      · exact absurd h1.symm he
      · simp [he, ih hnd h1]

/-! ## Zone scan lemmas -/

theorem zoneIdx_nodup : zoneIdx.Nodup := by decide

theorem zoneIdx_mem (i : Fin 8 × Fin 8) : i ∈ zoneIdx := by
  rcases i with ⟨g, b⟩
  simp [zoneIdx, List.mem_flatMap, List.mem_map]

/-- The zone topics of distinct zones are distinct strings. -/
theorem zoneTopic_inj : ∀ g b g2 b2 : Fin 8,
    mqttZoneTopic ++ Nat.repr (zoneNumber g b) = mqttZoneTopic ++ Nat.repr (zoneNumber g2 b2) →
    g = g2 ∧ b = b2 := by decide

theorem clearZoneBit_apply (ch : ZoneBits) (g b g2 b2 : Fin 8) :
    clearZoneBit ch g b g2 b2 = if g2 = g ∧ b2 = b then false else ch g2 b2 := by
  unfold clearZoneBit
  by_cases hg : g2 = g
  · subst hg
    rw [Function.update_same]
    by_cases hb : b2 = b
    · subst hb; simp [Function.update_same]
    · simp [hb, Function.update_noteq hb]
  · rw [Function.update_noteq hg]
    simp [hg]

/-- After scanning an index list, a (group, bit) changed flag is clear iff it
was clear before or the scan visited it. -/
theorem scanZones_fst (oz : ZoneBits) (l : List (Fin 8 × Fin 8)) (ch : ZoneBits)
    (g b : Fin 8) :
    (scanZones oz l ch).1 g b = (ch g b && !decide ((g, b) ∈ l)) := by
  induction l generalizing ch with
  | nil => simp [scanZones]
  | cons hd rest ih =>
    rcases hd with ⟨g0, b0⟩
    unfold scanZones
    by_cases hc : ch g0 b0 = true
    · rw [if_pos hc]
      show (scanZones oz rest (clearZoneBit ch g0 b0)).1 g b = _
      rw [ih]
      rw [clearZoneBit_apply]
      by_cases he : g = g0 ∧ b = b0
      · rcases he with ⟨h1, h2⟩
        subst h1; subst h2
        simp [hc]
      · have hne : ((g, b) : Fin 8 × Fin 8) ≠ (g0, b0) := by
          intro hcon
          exact he ⟨congrArg Prod.fst hcon, congrArg Prod.snd hcon⟩
        simp only [List.mem_cons, hne, false_or, if_neg he]
    · rw [if_neg hc]
      rw [ih]
      have hc0 : ch g0 b0 = false := Bool.eq_false_iff.mpr hc
      by_cases he : ((g, b) : Fin 8 × Fin 8) = (g0, b0)
      · have h1 : g = g0 := congrArg Prod.fst he
        have h2 : b = b0 := congrArg Prod.snd he
        subst h1; subst h2
        simp [hc0]
      · simp [List.mem_cons, he]

/-- The publishes of the scan are exactly one publish per set changed flag,
in visit order, each carrying that zone's current state. -/
theorem scanZones_snd (oz : ZoneBits) (l : List (Fin 8 × Fin 8)) (ch : ZoneBits)
    (hnd : l.Nodup) :
    (scanZones oz l ch).2 =
      (l.filter fun i => ch i.1 i.2).map fun i => zonePublish oz i.1 i.2 := by
  induction l generalizing ch with
  | nil => simp [scanZones]
  | cons hd rest ih =>
    rcases List.nodup_cons.mp hnd with ⟨hmem, hnd2⟩
    rcases hd with ⟨g0, b0⟩
    unfold scanZones
    by_cases hc : ch g0 b0 = true
    · rw [if_pos hc]
      show zonePublish oz g0 b0 :: (scanZones oz rest (clearZoneBit ch g0 b0)).2 = _
      rw [ih _ hnd2]
      have hsame : (rest.filter fun i => clearZoneBit ch g0 b0 i.1 i.2) =
          rest.filter fun i => ch i.1 i.2 := by
        apply List.filter_congr
        intro i hi
        rw [clearZoneBit_apply]
        have hne : i ≠ (g0, b0) := fun hcon => hmem (hcon ▸ hi)
        have hno : ¬(i.1 = g0 ∧ i.2 = b0) := by
          intro hcon
          exact hne (Prod.ext hcon.1 hcon.2)
        simp [hno]
      rw [hsame, List.filter_cons_of_pos (by simp [hc]), List.map_cons]
    · rw [if_neg hc]
      have hc0 : ch g0 b0 = false := Bool.eq_false_iff.mpr hc
      rw [ih _ hnd2, List.filter_cons_of_neg (by simp [hc0])]

/-! ## Partition step lemmas -/

theorem processPartition_fst (ps : PartitionStatus) (i : Nat) :
    (processPartition ps i).1 =
      { ps with armedChanged := false, exitDelayChanged := false
              , alarmChanged := false, fireChanged := false } := by
  rcases ps with ⟨a, aw, as2, ac, ed, edc, al, alc, f, fc, d⟩
  unfold processPartition processArmed processExitDelay processAlarm processFire
  cases ac <;> cases edc <;> cases alc <;> cases fc <;> rfl

theorem processPartition_snd_nil (ps : PartitionStatus) (i : Nat)
    (h1 : ps.armedChanged = false) (h2 : ps.exitDelayChanged = false)
    (h3 : ps.alarmChanged = false) (h4 : ps.fireChanged = false) :
    (processPartition ps i).2 = [] := by
  rcases ps with ⟨a, aw, as2, ac, ed, edc, al, alc, f, fc, d⟩
  simp only at h1 h2 h3 h4
  subst h1; subst h2; subst h3; subst h4
  rfl

theorem partitionsPassAux_flags (k : Nat) (l : List PartitionStatus) :
    ∀ ps ∈ (partitionsPassAux k l).1,
      ps.armedChanged = false ∧ ps.exitDelayChanged = false ∧
      ps.alarmChanged = false ∧ ps.fireChanged = false := by
  induction l generalizing k with
  | nil => intro ps hmem; cases hmem
  | cons hd t ih =>
    intro ps hmem
    have hm2 : ps = (processPartition hd k).1 ∨ ps ∈ (partitionsPassAux (k + 1) t).1 :=
      List.mem_cons.mp hmem
    rcases hm2 with he | hm
    · rw [he, processPartition_fst]
      exact ⟨rfl, rfl, rfl, rfl⟩
    · exact ih (k + 1) ps hm

theorem partitionsPassAux_nil (k : Nat) (l : List PartitionStatus)
    (h : ∀ ps ∈ l, ps.armedChanged = false ∧ ps.exitDelayChanged = false ∧
          ps.alarmChanged = false ∧ ps.fireChanged = false) :
    (partitionsPassAux k l).2 = [] := by
  induction l generalizing k with
  | nil => rfl
  | cons hd t ih =>
    have hh := h hd (List.mem_cons_self hd t)
    show (processPartition hd k).2 ++ (partitionsPassAux (k + 1) t).2 = []
    rw [processPartition_snd_nil hd k hh.1 hh.2.1 hh.2.2.1 hh.2.2.2,
      ih (k + 1) fun ps hps => h ps (List.mem_cons_of_mem hd hps)]
    rfl

theorem processArmed_emit (ps : PartitionStatus) (i : Nat) :
    (processArmed ps i).2.length ≤ 1 ∧
    ((processArmed ps i).2 ≠ [] →
      ps.armedChanged = true ∧ (processArmed ps i).1.armedChanged = false) := by
  unfold processArmed
  by_cases hc : ps.armedChanged = true
  · rw [if_pos hc]
    refine ⟨?_, fun _ => ⟨hc, rfl⟩⟩
    by_cases h1 : ps.armed = true
    · rw [if_pos h1]
      by_cases h2 : ps.armedAway = true
      · rw [if_pos h2]; simp
      · rw [if_neg h2]
        by_cases h3 : ps.armedStay = true
        · rw [if_pos h3]; simp
        · rw [if_neg h3]; simp
    · rw [if_neg h1]; simp
  · rw [if_neg hc]
    exact ⟨by simp, fun hcon => absurd rfl hcon⟩

theorem processExitDelay_emit (ps : PartitionStatus) (i : Nat) :
    (processExitDelay ps i).2.length ≤ 1 ∧
    ((processExitDelay ps i).2 ≠ [] →
      ps.exitDelayChanged = true ∧ (processExitDelay ps i).1.exitDelayChanged = false) := by
  unfold processExitDelay
  by_cases hc : ps.exitDelayChanged = true
  · rw [if_pos hc]
    refine ⟨?_, fun _ => ⟨hc, rfl⟩⟩
    by_cases h1 : ps.exitDelay = true
    · rw [if_pos h1]; simp
    · rw [if_neg h1]
      by_cases h2 : ps.armed = false
      · rw [if_pos h2]; simp
      · rw [if_neg h2]; simp
  · rw [if_neg hc]
    exact ⟨by simp, fun hcon => absurd rfl hcon⟩

theorem processAlarm_emit (ps : PartitionStatus) (i : Nat) :
    (processAlarm ps i).2.length ≤ 1 ∧
    ((processAlarm ps i).2 ≠ [] →
      ps.alarmChanged = true ∧ (processAlarm ps i).1.alarmChanged = false) := by
  unfold processAlarm
  by_cases hc : ps.alarmChanged = true
  · rw [if_pos hc]
    refine ⟨?_, fun _ => ⟨hc, rfl⟩⟩
    by_cases h1 : ps.alarm = true
    · rw [if_pos h1]; simp
    · rw [if_neg h1]; simp
  · rw [if_neg hc]
    exact ⟨by simp, fun hcon => absurd rfl hcon⟩

theorem processFire_emit (ps : PartitionStatus) (i : Nat) :
    (processFire ps i).2.length ≤ 1 ∧
    ((processFire ps i).2 ≠ [] →
      ps.fireChanged = true ∧ (processFire ps i).1.fireChanged = false) := by
  unfold processFire
  by_cases hc : ps.fireChanged = true
  · rw [if_pos hc]
    refine ⟨?_, fun _ => ⟨hc, rfl⟩⟩
    by_cases h1 : ps.fire = true
    · rw [if_pos h1]; simp
    · rw [if_neg h1]; simp
  · rw [if_neg hc]
    exact ⟨by simp, fun hcon => absurd rfl hcon⟩

/-! ## Claim C2 -/

/-- C2: for every zone group g and bit b whose changed bit is set, the zone
scan clears exactly that bit and publishes one message to the zone topic
suffixed with `g*8+b+1`, payload `"1"` if the zone state bit is set and
`"0"` otherwise, and re-scanning immediately after yields no further
publish for that zone. -/
theorem c2_zone_scan (oz ch : ZoneBits) (g b : Fin 8) (h : ch g b = true) :
    (zoneScan oz ch).1 g b = false ∧
    ((zoneScan oz ch).2.filter fun pu =>
        decide (pu.topic = mqttZoneTopic ++ Nat.repr (g.val * 8 + b.val + 1))) =
      [{ topic := mqttZoneTopic ++ Nat.repr (g.val * 8 + b.val + 1)
       , payload := if oz g b = true then "1" else "0"
       , retained := true }] ∧
    ((zoneScan oz (zoneScan oz ch).1).2.filter fun pu =>
        decide (pu.topic = mqttZoneTopic ++ Nat.repr (g.val * 8 + b.val + 1))) = [] := by
  have hz : g.val * 8 + b.val + 1 = zoneNumber g b := by
    unfold zoneNumber; omega
  have hfst : (zoneScan oz ch).1 g b = false := by
    rw [zoneScan, scanZones_fst]
    simp [zoneIdx_mem (g, b)]
  have htopic : ∀ i : Fin 8 × Fin 8, i ≠ (g, b) →
      (zonePublish oz i.1 i.2).topic ≠ mqttZoneTopic ++ Nat.repr (g.val * 8 + b.val + 1) := by
    intro i hne hcon
    rw [hz] at hcon
    have := zoneTopic_inj i.1 i.2 g b hcon
    exact hne (Prod.ext this.1 this.2)
  refine ⟨hfst, ?_, ?_⟩
  · rw [zoneScan, scanZones_snd _ _ _ zoneIdx_nodup, List.filter_map, filter_filter_eq]
    have hsel : (zoneIdx.filter fun i =>
          ch i.1 i.2 && decide ((zonePublish oz i.1 i.2).topic =
            mqttZoneTopic ++ Nat.repr (g.val * 8 + b.val + 1))) =
        zoneIdx.filter fun i => decide (i = (g, b)) := by
      apply List.filter_congr
      intro i _
      by_cases he : i = (g, b)
      · subst he
        simp [h, zonePublish, hz]
      · simp [he, htopic i he]
    simp only [Function.comp] at hsel ⊢
    rw [hsel, filter_singleton_of_nodup _ _ zoneIdx_nodup (zoneIdx_mem (g, b))]
    simp [zonePublish, hz]
  · have hfst2 : (scanZones oz zoneIdx ch).1 g b = false := hfst
    unfold zoneScan
    rw [scanZones_snd _ _ _ zoneIdx_nodup, List.filter_map, filter_filter_eq]
    rw [List.map_eq_nil_iff]
    apply filter_nil_of_false
    intro i _
    by_cases he : i = (g, b)
    · subst he
      simp [hfst2]
    · simp [htopic i he]

/-- C2 witness: zone 5 (group 0, bit 4) open with its changed bit set: the
scan clears the bit and publishes `dsc/Get/Zone5` with payload `"1"`, and a
re-scan publishes nothing for that topic. -/
theorem c2_zone_scan_witness :
    (fun g2 b2 : Fin 8 => g2 = 0 ∧ b2 = 4 : ZoneBits) 0 4 = true ∧
    ((zoneScan (fun g2 b2 => g2 = 0 ∧ b2 = 4) (fun g2 b2 => g2 = 0 ∧ b2 = 4)).1 0 4 = false ∧
     ((zoneScan (fun g2 b2 => g2 = 0 ∧ b2 = 4) (fun g2 b2 => g2 = 0 ∧ b2 = 4)).2.filter fun pu =>
         decide (pu.topic = mqttZoneTopic ++ Nat.repr ((0 : Fin 8).val * 8 + (4 : Fin 8).val + 1))) =
       [{ topic := mqttZoneTopic ++ Nat.repr ((0 : Fin 8).val * 8 + (4 : Fin 8).val + 1)
        , payload := if (fun g2 b2 : Fin 8 => g2 = 0 ∧ b2 = 4 : ZoneBits) 0 4 = true then "1" else "0"
        , retained := true }] ∧
     ((zoneScan (fun g2 b2 => g2 = 0 ∧ b2 = 4)
         (zoneScan (fun g2 b2 => g2 = 0 ∧ b2 = 4) (fun g2 b2 => g2 = 0 ∧ b2 = 4)).1).2.filter fun pu =>
         decide (pu.topic = mqttZoneTopic ++ Nat.repr ((0 : Fin 8).val * 8 + (4 : Fin 8).val + 1))) = []) :=
  ⟨by decide, c2_zone_scan _ _ 0 4 (by decide)⟩

/-! ## Claim C1 -/

/-- C1 counterexample: on a pass whose only pending change is an alarm
restore (`alarmChanged` set while `alarm` is clear), the loop clears the
changed flag yet emits no message at all, so a flag can be cleared with no
corresponding emission. -/
theorem c1_counterexample :
    (alarmRestoredState.partitions.getD 0 blankPartition).alarmChanged = true ∧
    (loopPass alarmRestoredState).2 = [] ∧
    ((loopPass alarmRestoredState).1.partitions.getD 0 blankPartition).alarmChanged = false := by
  refine ⟨rfl, ?_, ?_⟩ <;> decide

/-- C1 (amended): one pass clears every consumed changed flag exactly once,
at most one message is emitted per consumed flag and only with the flag
cleared in the same step, and a re-entered pass (even one forced by a new
status summary) emits nothing for already-consumed transitions; however a
flag may be cleared with no message emitted when the new value has no
outbound encoding. -/
theorem c1_flag_bookkeeping (s : DscState) (h : s.statusChanged = true) :
    ((loopPass s).1.statusChanged = false) ∧
    (∀ ps ∈ (loopPass s).1.partitions,
      ps.armedChanged = false ∧ ps.exitDelayChanged = false ∧
      ps.alarmChanged = false ∧ ps.fireChanged = false) ∧
    ((loopPass s).1.openZonesStatusChanged = false) ∧
    (s.openZonesStatusChanged = true →
      ∀ g b : Fin 8, (loopPass s).1.openZonesChanged g b = false) ∧
    ((loopPass (loopPass s).1).2 = []) ∧
    ((loopPass { (loopPass s).1 with statusChanged := true }).2 = []) ∧
    (∀ (ps : PartitionStatus) (i : Nat),
      (processArmed ps i).2.length ≤ 1 ∧ (processExitDelay ps i).2.length ≤ 1 ∧
      (processAlarm ps i).2.length ≤ 1 ∧ (processFire ps i).2.length ≤ 1) ∧
    (∀ (ps : PartitionStatus) (i : Nat),
      ((processArmed ps i).2 ≠ [] →
        ps.armedChanged = true ∧ (processArmed ps i).1.armedChanged = false) ∧
      ((processExitDelay ps i).2 ≠ [] →
        ps.exitDelayChanged = true ∧ (processExitDelay ps i).1.exitDelayChanged = false) ∧
      ((processAlarm ps i).2 ≠ [] →
        ps.alarmChanged = true ∧ (processAlarm ps i).1.alarmChanged = false) ∧
      ((processFire ps i).2 ≠ [] →
        ps.fireChanged = true ∧ (processFire ps i).1.fireChanged = false)) := by
  have hrun : loopPass s =
      ({ s with statusChanged := false
              , bufferOverflow := false
              , accessCodePrompt := false
              , partitions := (partitionsPass s.partitions).1
              , openZonesStatusChanged :=
                  (if s.openZonesStatusChanged = true then
                    ((false : Bool), (zoneScan s.openZones s.openZonesChanged).1,
                      (zoneScan s.openZones s.openZonesChanged).2)
                  else (s.openZonesStatusChanged, s.openZonesChanged, ([] : List Publish))).1
              , openZonesChanged :=
                  (if s.openZonesStatusChanged = true then
                    ((false : Bool), (zoneScan s.openZones s.openZonesChanged).1,
                      (zoneScan s.openZones s.openZonesChanged).2)
                  else (s.openZonesStatusChanged, s.openZonesChanged, ([] : List Publish))).2.1 }
      , (partitionsPass s.partitions).2 ++
          (if s.openZonesStatusChanged = true then
            ((false : Bool), (zoneScan s.openZones s.openZonesChanged).1,
              (zoneScan s.openZones s.openZonesChanged).2)
          else (s.openZonesStatusChanged, s.openZonesChanged, ([] : List Publish))).2.2) := by
    unfold loopPass
    rw [if_pos h]
  have hflags : ∀ ps ∈ (loopPass s).1.partitions,
      ps.armedChanged = false ∧ ps.exitDelayChanged = false ∧
      ps.alarmChanged = false ∧ ps.fireChanged = false := by
    rw [hrun]
    exact partitionsPassAux_flags 0 s.partitions
  have hsc : (loopPass s).1.statusChanged = false := by rw [hrun]
  have hoz : (loopPass s).1.openZonesStatusChanged = false := by
    rw [hrun]
    by_cases hb : s.openZonesStatusChanged = true
    · rw [if_pos hb]
    · rw [if_neg hb]
      exact Bool.eq_false_iff.mpr hb
  have hnil2 : ∀ t : DscState, t.statusChanged = false →
      (∀ ps ∈ t.partitions,
        ps.armedChanged = false ∧ ps.exitDelayChanged = false ∧
        ps.alarmChanged = false ∧ ps.fireChanged = false) →
      t.openZonesStatusChanged = false →
      (loopPass { t with statusChanged := true }).2 = [] := by
    intro t _ hps hozt
    unfold loopPass
    rw [if_pos rfl]
    show (partitionsPass ({ t with statusChanged := true } : DscState).partitions).2 ++ _ = []
    have h1 : (partitionsPass t.partitions).2 = [] := partitionsPassAux_nil 0 t.partitions hps
    have hbr : ¬(({ t with statusChanged := true } : DscState).openZonesStatusChanged = true) := by
      show ¬(t.openZonesStatusChanged = true)
      rw [hozt]; simp
    rw [if_neg hbr]
    show (partitionsPass t.partitions).2 ++ ([] : List Publish) = []
    rw [h1]
    rfl
  have hnil1 : ∀ t : DscState, t.statusChanged = false → (loopPass t).2 = [] := by
    intro t ht
    unfold loopPass
    rw [if_neg (by rw [ht]; simp)]
  refine ⟨hsc, hflags, hoz, ?_, ?_, ?_, ?_, ?_⟩
  · intro hozs g b
    rw [hrun]
    show (if s.openZonesStatusChanged = true then
        ((false : Bool), (zoneScan s.openZones s.openZonesChanged).1,
          (zoneScan s.openZones s.openZonesChanged).2)
      else (s.openZonesStatusChanged, s.openZonesChanged, ([] : List Publish))).2.1 g b = false
    rw [if_pos hozs]
    show (zoneScan s.openZones s.openZonesChanged).1 g b = false
    rw [zoneScan, scanZones_fst]
    simp [zoneIdx_mem (g, b)]
  · exact hnil1 (loopPass s).1 hsc
  · exact hnil2 (loopPass s).1 hsc hflags hoz
  · intro ps i
    exact ⟨(processArmed_emit ps i).1, (processExitDelay_emit ps i).1,
      (processAlarm_emit ps i).1, (processFire_emit ps i).1⟩
  · intro ps i
    exact ⟨(processArmed_emit ps i).2, (processExitDelay_emit ps i).2,
      (processAlarm_emit ps i).2, (processFire_emit ps i).2⟩

/-- C1 witness at a concrete state with a pending armed-away transition and
a pending zone change. -/
theorem c1_flag_bookkeeping_witness :
    busyState.statusChanged = true ∧
    (((loopPass busyState).1.statusChanged = false) ∧
     (∀ ps ∈ (loopPass busyState).1.partitions,
       ps.armedChanged = false ∧ ps.exitDelayChanged = false ∧
       ps.alarmChanged = false ∧ ps.fireChanged = false) ∧
     ((loopPass busyState).1.openZonesStatusChanged = false) ∧
     (busyState.openZonesStatusChanged = true →
       ∀ g b : Fin 8, (loopPass busyState).1.openZonesChanged g b = false) ∧
     ((loopPass (loopPass busyState).1).2 = []) ∧
     ((loopPass { (loopPass busyState).1 with statusChanged := true }).2 = []) ∧
     (∀ (ps : PartitionStatus) (i : Nat),
       (processArmed ps i).2.length ≤ 1 ∧ (processExitDelay ps i).2.length ≤ 1 ∧
       (processAlarm ps i).2.length ≤ 1 ∧ (processFire ps i).2.length ≤ 1) ∧
     (∀ (ps : PartitionStatus) (i : Nat),
       ((processArmed ps i).2 ≠ [] →
         ps.armedChanged = true ∧ (processArmed ps i).1.armedChanged = false) ∧
       ((processExitDelay ps i).2 ≠ [] →
         ps.exitDelayChanged = true ∧ (processExitDelay ps i).1.exitDelayChanged = false) ∧
       ((processAlarm ps i).2 ≠ [] →
         ps.alarmChanged = true ∧ (processAlarm ps i).1.alarmChanged = false) ∧
       ((processFire ps i).2 ≠ [] →
         ps.fireChanged = true ∧ (processFire ps i).1.fireChanged = false))) :=
  ⟨rfl, c1_flag_bookkeeping busyState rfl⟩

/-! ## Claim C6 -/

/-- C6: each partition fact is encoded with the partition topic suffixed by
the 1-based decimal partition number and a payload of that number followed
by the fact letter (A, S, D, P, T); the encoding depends only on the
(fact, value) fields; and the disarmed-to-armed-away transition of
partition 1 yields exactly one publish to `dsc/Get/Partition1` with payload
`"1A"`. -/
theorem c6_partition_encoding (p : Nat) (hp : p < 8) :
    (∀ ps : PartitionStatus, (processArmed ps p).2 =
      if ps.armedChanged = true then
        if ps.armed = true then
          if ps.armedAway = true then
            [{ topic := mqttPartitionTopic ++ Nat.repr (p + 1)
             , payload := Nat.repr (p + 1) ++ "A", retained := true }]
          else if ps.armedStay = true then
            [{ topic := mqttPartitionTopic ++ Nat.repr (p + 1)
             , payload := Nat.repr (p + 1) ++ "S", retained := true }]
          else []
        else
          [{ topic := mqttPartitionTopic ++ Nat.repr (p + 1)
           , payload := Nat.repr (p + 1) ++ "D", retained := true }]
      else []) ∧
    (∀ ps : PartitionStatus, (processExitDelay ps p).2 =
      if ps.exitDelayChanged = true then
        if ps.exitDelay = true then
          [{ topic := mqttPartitionTopic ++ Nat.repr (p + 1)
           , payload := Nat.repr (p + 1) ++ "P", retained := true }]
        else if ps.armed = false then
          [{ topic := mqttPartitionTopic ++ Nat.repr (p + 1)
           , payload := Nat.repr (p + 1) ++ "D", retained := true }]
        else []
      else []) ∧
    (∀ ps : PartitionStatus, (processAlarm ps p).2 =
      if ps.alarmChanged = true then
        if ps.alarm = true then
          [{ topic := mqttPartitionTopic ++ Nat.repr (p + 1)
           , payload := Nat.repr (p + 1) ++ "T", retained := true }]
        else []
      else []) ∧
    (∀ ps1 ps2 : PartitionStatus, ps1.armedChanged = ps2.armedChanged →
      ps1.armed = ps2.armed → ps1.armedAway = ps2.armedAway →
      ps1.armedStay = ps2.armedStay →
      (processArmed ps1 p).2 = (processArmed ps2 p).2) ∧
    (partitionsPass armedAwayDemo).2 =
      [{ topic := "dsc/Get/Partition1", payload := "1A", retained := true }] := by
  have hA : ∀ ps : PartitionStatus, (processArmed ps p).2 =
      if ps.armedChanged = true then
        if ps.armed = true then
          if ps.armedAway = true then
            [{ topic := mqttPartitionTopic ++ Nat.repr (p + 1)
             , payload := Nat.repr (p + 1) ++ "A", retained := true }]
          else if ps.armedStay = true then
            [{ topic := mqttPartitionTopic ++ Nat.repr (p + 1)
             , payload := Nat.repr (p + 1) ++ "S", retained := true }]
          else []
        else
          [{ topic := mqttPartitionTopic ++ Nat.repr (p + 1)
           , payload := Nat.repr (p + 1) ++ "D", retained := true }]
      else [] := by
    intro ps
    by_cases h : ps.armedChanged = true <;> simp [processArmed, publishState, h]
  refine ⟨hA, ?_, ?_, ?_, by decide⟩
  · intro ps
    by_cases h : ps.exitDelayChanged = true <;> simp [processExitDelay, publishState, h]
  · intro ps
    by_cases h : ps.alarmChanged = true <;> simp [processAlarm, publishState, h]
  · intro ps1 ps2 h1 h2 h3 h4
    rw [hA ps1, hA ps2, h1, h2, h3, h4]

/-- C6 witness at partition 1 (index 0): the armed-away encoding is
`dsc/Get/Partition1` / `"1A"`. -/
theorem c6_partition_encoding_witness :
    (0 : Nat) < 8 ∧
    ((processArmed { blankPartition with armedChanged := true, armed := true, armedAway := true } 0).2 =
      if ({ blankPartition with armedChanged := true, armed := true, armedAway := true } : PartitionStatus).armedChanged = true then
        if ({ blankPartition with armedChanged := true, armed := true, armedAway := true } : PartitionStatus).armed = true then
          if ({ blankPartition with armedChanged := true, armed := true, armedAway := true } : PartitionStatus).armedAway = true then
            [{ topic := mqttPartitionTopic ++ Nat.repr 1
             , payload := Nat.repr 1 ++ "A", retained := true }]
          else if ({ blankPartition with armedChanged := true, armed := true, armedAway := true } : PartitionStatus).armedStay = true then
            [{ topic := mqttPartitionTopic ++ Nat.repr 1
             , payload := Nat.repr 1 ++ "S", retained := true }]
          else []
        else
          [{ topic := mqttPartitionTopic ++ Nat.repr 1
           , payload := Nat.repr 1 ++ "D", retained := true }]
      else []) ∧
    (partitionsPass armedAwayDemo).2 =
      [{ topic := "dsc/Get/Partition1", payload := "1A", retained := true }] :=
  ⟨by decide
  , (c6_partition_encoding 0 (by decide)).1
      { blankPartition with armedChanged := true, armed := true, armedAway := true }
  , (c6_partition_encoding 0 (by decide)).2.2.2.2⟩

/-! ## Claim C7 -/

/-- C7: a partition whose exit-delay changed flag is consumed with
`exitDelay` off and `armed` off still gets a disarmed `"<N>D"` message. -/
theorem c7_exit_delay_disarm (ps : PartitionStatus) (i : Nat) (hi : i < dscPartitions)
    (h1 : ps.exitDelayChanged = true) (h2 : ps.exitDelay = false) (h3 : ps.armed = false) :
    ({ topic := mqttPartitionTopic ++ Nat.repr (i + 1)
     , payload := Nat.repr (i + 1) ++ "D", retained := true } : Publish)
      ∈ (processPartition ps i).2 := by
  have ha1 : (processArmed ps i).1.exitDelayChanged = true := by
    unfold processArmed; split <;> exact h1
  have ha2 : (processArmed ps i).1.exitDelay = false := by
    unfold processArmed; split <;> exact h2
  have ha3 : (processArmed ps i).1.armed = false := by
    unfold processArmed; split <;> exact h3
  have he : (processExitDelay (processArmed ps i).1 i).2 =
      [{ topic := mqttPartitionTopic ++ Nat.repr (i + 1)
       , payload := Nat.repr (i + 1) ++ "D", retained := true }] := by
    unfold processExitDelay
    rw [if_pos ha1, if_neg (by rw [ha2]; simp), if_pos ha3]
    rfl
  show _ ∈ (processArmed ps i).2 ++ (processExitDelay (processArmed ps i).1 i).2 ++
      (processAlarm (processExitDelay (processArmed ps i).1 i).1 i).2 ++
      (processFire (processAlarm (processExitDelay (processArmed ps i).1 i).1 i).1 i).2
  rw [he]
  simp [List.mem_append]

/-- C7 witness: partition 1 leaving exit delay without arming. -/
theorem c7_exit_delay_disarm_witness :
    (0 : Nat) < dscPartitions ∧
    exitEndedPartition.exitDelayChanged = true ∧
    exitEndedPartition.exitDelay = false ∧
    exitEndedPartition.armed = false ∧
    ({ topic := mqttPartitionTopic ++ Nat.repr 1
     , payload := Nat.repr 1 ++ "D", retained := true } : Publish)
      ∈ (processPartition exitEndedPartition 0).2 :=
  ⟨by decide, rfl, rfl, rfl,
    c7_exit_delay_disarm exitEndedPartition 0 (by decide) rfl rfl rfl⟩

/-! ## Claim C5 -/

theorem twilioStep_disabled (ps : PartitionStatus) (i : Nat) (h : ps.disabled = true) :
    twilioPartitionStep ps i = (ps, []) := by
  unfold twilioPartitionStep
  rw [if_pos h]

theorem twilioPassAux_get (k : Nat) (l : List PartitionStatus) (i : Nat) (hi : i < l.length)
    (hd : (l.get ⟨i, hi⟩).disabled = true) :
    (twilioPassAux k l).1[i]? = some (l.get ⟨i, hi⟩) := by
  induction l generalizing k i with
  | nil => cases hi
  | cons hd0 t ih =>
    cases i with
    | zero =>
      show ((twilioPartitionStep hd0 k).1 :: (twilioPassAux (k + 1) t).1)[0]? = some hd0
      rw [twilioStep_disabled hd0 k hd]
      simp
    | succ j =>
      show ((twilioPartitionStep hd0 k).1 :: (twilioPassAux (k + 1) t).1)[j + 1]? = _
      rw [List.getElem?_cons_succ]
      exact ih (k + 1) j (Nat.lt_of_succ_lt_succ hi) hd

theorem twilioPassAux_set (k : Nat) (l : List PartitionStatus) (i : Nat)
    (ps2 : PartitionStatus) (hi : i < l.length) (hd : (l.get ⟨i, hi⟩).disabled = true)
    (h2 : ps2.disabled = true) :
    (twilioPassAux k (l.set i ps2)).2 = (twilioPassAux k l).2 := by
  induction l generalizing k i with
  | nil => cases hi
  | cons hd0 t ih =>
    cases i with
    | zero =>
      show ((twilioPartitionStep ps2 k).2 ++ (twilioPassAux (k + 1) t).2) =
        ((twilioPartitionStep hd0 k).2 ++ (twilioPassAux (k + 1) t).2)
      rw [twilioStep_disabled ps2 k h2, twilioStep_disabled hd0 k hd]
    | succ j =>
      show ((twilioPartitionStep hd0 k).2 ++ (twilioPassAux (k + 1) (t.set j ps2)).2) =
        ((twilioPartitionStep hd0 k).2 ++ (twilioPassAux (k + 1) t).2)
      rw [ih (k + 1) j (Nat.lt_of_succ_lt_succ hi) hd]

/-- C5 (amended): the Twilio SMS sketch's per-partition pass skips disabled
partitions entirely: a disabled partition's state is returned unchanged,
its step contributes no messages, and the pass output is completely
insensitive to the per-partition flags of a disabled slot. -/
theorem c5_disabled_skip (parts : List PartitionStatus) (i : Nat)
    (hi : i < parts.length) (hd : (parts.get ⟨i, hi⟩).disabled = true) :
    (∀ j : Nat, twilioPartitionStep (parts.get ⟨i, hi⟩) j = (parts.get ⟨i, hi⟩, [])) ∧
    (twilioPartitionsPass parts).1[i]? = some (parts.get ⟨i, hi⟩) ∧
    (∀ ps2 : PartitionStatus, ps2.disabled = true →
      (twilioPartitionsPass (parts.set i ps2)).2 = (twilioPartitionsPass parts).2) := by
  refine ⟨fun j => twilioStep_disabled _ j hd, twilioPassAux_get 0 parts i hi hd, ?_⟩
  intro ps2 h2
  exact twilioPassAux_set 0 parts i ps2 hi hd h2

/-- C5 witness: a two-partition state whose second partition is disabled
with a pending armed flag. -/
theorem c5_disabled_skip_witness :
    (1 : Nat) < ([blankPartition, disabledPending] : List PartitionStatus).length ∧
    (([blankPartition, disabledPending] : List PartitionStatus).get ⟨1, by decide⟩).disabled = true ∧
    ((∀ j : Nat, twilioPartitionStep (([blankPartition, disabledPending] : List PartitionStatus).get ⟨1, by decide⟩) j =
        (([blankPartition, disabledPending] : List PartitionStatus).get ⟨1, by decide⟩, [])) ∧
     (twilioPartitionsPass [blankPartition, disabledPending]).1[1]? =
        some (([blankPartition, disabledPending] : List PartitionStatus).get ⟨1, by decide⟩) ∧
     (∀ ps2 : PartitionStatus, ps2.disabled = true →
       (twilioPartitionsPass (([blankPartition, disabledPending] : List PartitionStatus).set 1 ps2)).2 =
         (twilioPartitionsPass [blankPartition, disabledPending]).2)) :=
  ⟨by decide, rfl, c5_disabled_skip [blankPartition, disabledPending] 1 (by decide) rfl⟩

/-- C5 counterexample: the OpenHAB MQTT sketch's partition pass (which the
claim also covers) never consults `disabled`: a disabled partition with a
pending armed flag has that changed flag read and cleared and a message is
published for it. -/
theorem c5_counterexample :
    disabledPending.disabled = true ∧
    disabledPending.armedChanged = true ∧
    (processPartition disabledPending 0).2 =
      [{ topic := "dsc/Get/Partition1", payload := "1D", retained := true }] ∧
    (processPartition disabledPending 0).1.armedChanged = false := by
  refine ⟨rfl, rfl, ?_, ?_⟩ <;> decide

/-! ## Claim C4 -/

/-- C4 counterexample: the WiFi supervisor of the Twilio SMS sketch makes a
successful transition into the connected state but does not set every
tracked fact's changed flag: partition 1's `armedChanged` stays false. -/
theorem c4_counterexample :
    outageState.wifiConnected = false ∧
    (wifiCheck true outageState).wifiConnected = true ∧
    ((wifiCheck true outageState).partitions.getD 0 blankPartition).armedChanged = false := by
  refine ⟨rfl, ?_, ?_⟩ <;> decide

/-- C4 (amended): the MQTT supervisor forces a full resync on every
successful (re)connection — `resetStatus` marks every tracked fact changed,
after which the zone scan re-emits every zone's current state exactly once
— while the Twilio WiFi supervisor merely resumes status processing
(unpauses and raises the summary flag), leaving the per-fact changed flags
as they were. -/
theorem c4_resync (s : DscState) (t : TwilioState) (ht : t.wifiConnected = false) :
    mqttConnect true s = resetStatus s ∧
    (resetStatus s).statusChanged = true ∧
    (resetStatus s).openZonesStatusChanged = true ∧
    (∀ g b : Fin 8, (resetStatus s).openZonesChanged g b = true) ∧
    (∀ ps ∈ (resetStatus s).partitions,
      ps.armedChanged = true ∧ ps.exitDelayChanged = true ∧
      ps.alarmChanged = true ∧ ps.fireChanged = true) ∧
    ((zoneScan (resetStatus s).openZones (resetStatus s).openZonesChanged).2 =
      zoneIdx.map fun i => zonePublish (resetStatus s).openZones i.1 i.2) ∧
    (∀ s2 : DscState, mqttConnect false s2 = s2) ∧
    wifiCheck true t =
      { t with wifiConnected := true, pauseStatus := false, statusChanged := true } := by
  refine ⟨?_, rfl, rfl, fun g b => rfl, ?_, ?_, fun s2 => rfl, ?_⟩
  · unfold mqttConnect
    rw [if_pos rfl]
  · intro ps hmem
    rcases List.mem_map.mp hmem with ⟨ps0, _, hps⟩
    rw [← hps]
    exact ⟨rfl, rfl, rfl, rfl⟩
  · show (zoneScan (resetStatus s).openZones fun _ _ => true).2 = _
    rw [zoneScan, scanZones_snd _ _ _ zoneIdx_nodup]
    congr 1
  · unfold wifiCheck
    rw [if_pos ⟨ht, rfl⟩]

/-- C4 witness: a concrete panel state and a concrete disconnected Twilio
state. -/
theorem c4_resync_witness :
    outageState.wifiConnected = false ∧
    (mqttConnect true busyState = resetStatus busyState ∧
     (resetStatus busyState).statusChanged = true ∧
     (resetStatus busyState).openZonesStatusChanged = true ∧
     (∀ g b : Fin 8, (resetStatus busyState).openZonesChanged g b = true) ∧
     (∀ ps ∈ (resetStatus busyState).partitions,
       ps.armedChanged = true ∧ ps.exitDelayChanged = true ∧
       ps.alarmChanged = true ∧ ps.fireChanged = true) ∧
     ((zoneScan (resetStatus busyState).openZones (resetStatus busyState).openZonesChanged).2 =
       zoneIdx.map fun i => zonePublish (resetStatus busyState).openZones i.1 i.2) ∧
     (∀ s2 : DscState, mqttConnect false s2 = s2) ∧
     wifiCheck true outageState =
       { outageState with wifiConnected := true, pauseStatus := false, statusChanged := true }) :=
  ⟨rfl, c4_resync busyState outageState rfl⟩

/-! ## Claim C3 -/

/-- The status scan succeeds exactly when the response splits as a
space-free head, the first space, then a `'2'`. -/
theorem statusCheck_iff (cs : List Char) :
    statusCheck cs = true ↔
      ∃ pre rest, cs = pre ++ ' ' :: '2' :: rest ∧ ' ' ∉ pre := by
  induction cs with
  | nil =>
    constructor
    · intro h
      exact absurd h (by simp [statusCheck, dropThroughSpace])
    · rintro ⟨pre, rest, hcs, -⟩
      exact absurd hcs (by simp)
  | cons c cs0 ih =>
    by_cases hsp : c = ' '
    · subst hsp
      cases cs0 with
      | nil =>
        constructor
        · intro h
          exact absurd h (by simp [statusCheck, dropThroughSpace])
        · rintro ⟨pre, rest, hcs, -⟩
          have hlen := congrArg List.length hcs
          simp at hlen
          omega
      | cons d cs1 =>
        have hval : statusCheck (' ' :: d :: cs1) = (d == '2') := by
          simp [statusCheck, dropThroughSpace]
        rw [hval]
        constructor
        · intro h
          refine ⟨[], cs1, ?_, by simp⟩
          rw [eq_of_beq h]
          rfl
        · rintro ⟨pre, rest, hcs, hnp⟩
          cases pre with
          | nil =>
            simp at hcs
            rw [hcs.1]
            decide
          | cons c0 pre0 =>
            simp at hcs
            exact absurd (by rw [hcs.1]; exact List.mem_cons_self c0 pre0) hnp
    · have hval : statusCheck (c :: cs0) = statusCheck cs0 := by
        simp [statusCheck, dropThroughSpace, hsp]
      rw [hval, ih]
      constructor
      · rintro ⟨pre, rest, hcs, hnp⟩
        refine ⟨c :: pre, rest, by rw [hcs]; rfl, ?_⟩
        intro hcon
        rcases List.mem_cons.mp hcon with he | hm
        · exact hsp he.symm
        · exact hnp hm
      · rintro ⟨pre, rest, hcs, hnp⟩
        cases pre with
        | nil =>
          simp at hcs
          exact absurd hcs.1 hsp
        | cons c0 pre0 =>
          simp at hcs
          exact ⟨pre0, rest, hcs.2, fun hm => hnp (List.mem_cons_of_mem c0 hm)⟩

/-- C3: the send routine reports success exactly when the connection was
made, a response arrived within the wait, and the character after the first
space of the status line is `'2'`; connection failure, timeout, and any
other leading status digit give failure.  Includes the spec's concrete
status-line classifications. -/
theorem c3_http_classification :
    (∀ (connected : Bool) (resp : Option (List Char)),
      sendPushResult connected resp = true ↔
        connected = true ∧ ∃ cs pre rest,
          resp = some cs ∧ cs = pre ++ ' ' :: '2' :: rest ∧ ' ' ∉ pre) ∧
    sendPushResult true (some "HTTP/1.1 200 OK".toList) = true ∧
    sendPushResult true (some "HTTP/1.1 201 Created".toList) = true ∧
    sendPushResult true (some "HTTP/1.1 404 Not Found".toList) = false ∧
    sendPushResult true (some "HTTP/1.1 500 Error".toList) = false ∧
    (∀ resp, sendPushResult false resp = false) ∧
    (∀ b, sendPushResult b none = false) := by
  refine ⟨?_, by decide, by decide, by decide, by decide, fun resp => rfl, ?_⟩
  · intro connected resp
    cases connected with
    | false => simp [sendPushResult]
    | true =>
      cases resp with
      | none => simp [sendPushResult]
      | some cs =>
        have hval : sendPushResult true (some cs) = statusCheck cs := rfl
        rw [hval, statusCheck_iff]
        constructor
        · rintro ⟨pre, rest, hcs, hnp⟩
          exact ⟨rfl, cs, pre, rest, rfl, hcs, hnp⟩
        · rintro ⟨-, cs2, pre, rest, hsome, hcs, hnp⟩
          cases Option.some.inj hsome
          exact ⟨pre, rest, hcs, hnp⟩
  · intro b
    cases b <;> rfl

/-! ## Claim C8 -/

/-- C8: the transmitted body is always one byte longer than the
`Content-Length` header claims — the fixed text `To=+`, `&From=+`, `&Body=`
is 17 bytes and `println` appends CR LF (2 bytes), 19 in all, while the
header adds only 18 — shown in general and at the startup notification. -/
theorem c8_content_length_off_by_one :
    (∀ toNum fromNum pfx msg : String,
      (pushRequestBody toNum fromNum pfx msg).length =
        contentLengthHeader toNum fromNum pfx msg + 1) ∧
    contentLengthHeader "16046707979" "16041234567" "Security system " "initializing" = 68 ∧
    (pushRequestBody "16046707979" "16041234567" "Security system " "initializing").length = 69 := by
  refine ⟨?_, by decide, by decide⟩
  intro a b c d
  unfold pushRequestBody contentLengthHeader
  simp only [String.length_append]
  have h1 : ("To=+" : String).length = 4 := rfl
  have h2 : ("&From=+" : String).length = 7 := rfl
  have h3 : ("&Body=" : String).length = 6 := rfl
  have h4 : ("\r\n" : String).length = 2 := rfl
  omega

/-! ## Claim C9 -/

/-- C9: a leading byte in `'1'..'8'` selects that partition with the next
byte as command, any other leading byte leaves the default partition 1 with
the first byte as command; a `'D'` command writes the access code to the
panel exactly once, and only while the selected partition is armed or in
exit delay; in all cases at most one panel write occurs. -/
theorem c9_command_dispatch (accessCode : String) (armed exitDelay : Nat → Bool)
    (payload : List Nat) :
    ((mqttCallback accessCode armed exitDelay payload).length ≤ 1) ∧
    (∀ c rest, payload = c :: rest → 0x31 ≤ c → c ≤ 0x38 → rest.getD 0 0 = 0x44 →
      mqttCallback accessCode armed exitDelay payload =
        if armed (c - 0x31) = true ∨ exitDelay (c - 0x31) = true then
          [{ writePartition := c - 0x30, keys := accessCode }]
        else []) ∧
    (∀ c rest, payload = c :: rest → ¬(0x31 ≤ c ∧ c ≤ 0x38) → c = 0x44 →
      mqttCallback accessCode armed exitDelay payload =
        if armed 0 = true ∨ exitDelay 0 = true then
          [{ writePartition := 1, keys := accessCode }]
        else []) := by
  refine ⟨?_, ?_, ?_⟩
  · simp only [mqttCallback]
    repeat' split
    all_goals simp
  · intro c rest hp h1 h2 hcmd
    subst hp
    simp only [List.getD_eq_getElem?_getD] at hcmd
    cases ha : armed (c - 49) <;> cases he : exitDelay (c - 49) <;>
      simp [mqttCallback, List.getD_cons_zero, List.getD_cons_succ, h1, h2, hcmd, ha, he] <;>
      omega
  · intro c rest hp hno hcmd
    subst hp
    subst hcmd
    cases ha : armed 0 <;> cases he : exitDelay 0 <;>
      simp [mqttCallback, List.getD_cons_zero, ha, he]

/-- C9 witness: payload `"1D"` (bytes 0x31 0x44) received while partition 1
is armed, with access code `"1234"`: exactly one write of the access code
to partition 1. -/
theorem c9_command_dispatch_witness :
    ((0x31 : Nat) ≤ 0x31 ∧ (0x31 : Nat) ≤ 0x38 ∧ ([0x44] : List Nat).getD 0 0 = 0x44) ∧
    mqttCallback "1234" (fun i => i == 0) (fun _ => false) [0x31, 0x44] =
      [{ writePartition := 1, keys := "1234" }] := by
  refine ⟨⟨by decide, by decide, rfl⟩, ?_⟩
  have h := (c9_command_dispatch "1234" (fun i => i == 0) (fun _ => false)
    [0x31, 0x44]).2.1 0x31 [0x44] rfl (by decide) (by decide) rfl
  rw [h]
  decide

/-! ## Claim C10 -/

/-- C10: the topic/payload assembly overruns its stack buffers — the
partition topic buffer and partition payload buffer receive one byte more
than their declared size for every partition, and the zone topic buffer
overflows for every two-digit zone number (only zones 1-9 fit). -/
theorem c10_buffer_sizes :
    (∀ p : Nat, p < 8 →
      publishTopicBytes mqttPartitionTopic p = publishTopicBufSize mqttPartitionTopic + 1 ∧
      ∀ sfx : String, currentStateBytes sfx p = currentStateBufSize sfx + 1) ∧
    (∀ z : Nat, 10 ≤ z → z ≤ 64 → zoneTopicBytes z = zoneTopicBufSize + 1) ∧
    (∀ z : Nat, 1 ≤ z → z ≤ 9 → zoneTopicBytes z = zoneTopicBufSize) := by
  refine ⟨?_, ?_, ?_⟩
  · intro p hp
    have hd : (Nat.repr (p + 1)).length = 1 := by
      interval_cases p <;> rfl
    constructor
    · unfold publishTopicBytes publishTopicBufSize
      rw [hd]
    · intro sfx
      unfold currentStateBytes currentStateBufSize
      rw [hd]
      omega
  · intro z h1 h2
    have hd : (Nat.repr z).length = 2 := by
      interval_cases z <;> rfl
    unfold zoneTopicBytes zoneTopicBufSize
    rw [hd]
  · intro z h1 h2
    have hd : (Nat.repr z).length = 1 := by
      interval_cases z <;> rfl
    unfold zoneTopicBytes zoneTopicBufSize
    rw [hd]

/-- C10 witness: partition 1 with the configured partition topic needs 19
bytes in an 18-byte buffer; zone 10 needs 15 bytes in a 14-byte buffer;
zone 5 fits exactly. -/
theorem c10_buffer_sizes_witness :
    ((0 : Nat) < 8 ∧ (10 : Nat) ≤ 10 ∧ (10 : Nat) ≤ 64 ∧ (1 : Nat) ≤ 5 ∧ (5 : Nat) ≤ 9) ∧
    publishTopicBytes mqttPartitionTopic 0 = publishTopicBufSize mqttPartitionTopic + 1 ∧
    currentStateBytes "A" 0 = currentStateBufSize "A" + 1 ∧
    zoneTopicBytes 10 = zoneTopicBufSize + 1 ∧
    zoneTopicBytes 5 = zoneTopicBufSize :=
  ⟨⟨by decide, by decide, by decide, by decide, by decide⟩
  , ((c10_buffer_sizes.1 0 (by decide)).1)
  , ((c10_buffer_sizes.1 0 (by decide)).2 "A")
  , (c10_buffer_sizes.2.1 10 (by decide) (by decide))
  , (c10_buffer_sizes.2.2 5 (by decide) (by decide))⟩

end DscKeybus
